import Mathlib

/-!
Shallow embedding of the archive-parsing core of the saten repository
(`src/file_checker.rs`, `src/reader_rar4.rs`, `src/reader_rar5.rs`,
`src/reader_zip.rs`, `src/compress_deflate.rs`, `src/sort_filename.rs`,
`src/model/archive_manager.rs`, `src/archive_reader.rs`), together with
theorems settling the claims about it.

Byte buffers (`Vec<u8>` / `&[u8]`) are modelled as `List Nat`; machine
integers are modelled as `Nat` with an explicit `% 2 ^ 64` at the points
where release-mode wrap-around of an overflowing operation is reachable.
A Rust panic (out-of-range index or slice, failed `unwrap`, failed
`assert!`) is modelled as the explicit error value `RErr.panic`; loops of
the source that have no termination guarantee are given fuel, whose
exhaustion is modelled as `RErr.diverge` (unreachable on every input used
in this development).
-/

namespace Saten

/-- Outcome of an embedded Rust computation. `panic` models any Rust panic
(out-of-bounds indexing or slicing, failed `unwrap`, failed `assert!`),
`diverge` models non-termination, and the remaining constructors mirror the
`ArchiveError` enum of `archive_reader.rs`. -/
inductive RErr where
  | panic
  | diverge
  | ioError
  | unsupportedFormat
  | corruptedArchive
  | invalidFileSize
  | headerParseError
  | stringConversionError
  | decompressionError
  | outOfBounds
  deriving DecidableEq

/-- Result type of an embedded computation, mirroring `ArchiveResult<T>` of
`archive_reader.rs` extended with the panic/divergence outcomes. -/
abbrev RRes (α : Type) := Except RErr α

instance (α : Type) [DecidableEq α] : DecidableEq (RRes α) := fun a b =>
  match a, b with
  | .ok x, .ok y =>
    if h : x = y then isTrue (by rw [h])
    else isFalse (fun hh => by cases hh; exact h rfl)
  | .error x, .error y =>
    if h : x = y then isTrue (by rw [h])
    else isFalse (fun hh => by cases hh; exact h rfl)
  | .ok _, .error _ => isFalse (fun hh => by cases hh)
  | .error _, .ok _ => isFalse (fun hh => by cases hh)

/-- CompressionType enum of `archive_reader.rs`. -/
inductive CompressionType where
  | Uncompress
  | Unsupported
  | Deflate
  | Deflate64
  | Rar5
  | Rar4
  deriving DecidableEq

/-- MemberFile struct of `archive_reader.rs`; the Rust `String` fields are
modelled as their UTF-8 byte lists. -/
structure MemberFile where
  filepath : List Nat
  filename : List Nat
  offset : Nat
  size : Nat
  fsize : Nat
  ctype : CompressionType
  deriving DecidableEq

/-- Member record as constructed by `Rar4Reader::read_archive` in
`reader_rar4.rs` (also by `reader_rar5.rs`): the struct literal there fills
only these five fields, with no `ctype`. -/
structure Rar4Member where
  filepath : List Nat
  filename : List Nat
  offset : Nat
  size : Nat
  fsize : Nat
  deriving DecidableEq

/-- FileType enum of `file_checker.rs`. -/
inductive FileType where
  | Zip
  | Rar5
  | Rar4
  | Unsupported
  deriving DecidableEq

/-- Rust `Vec`/slice indexing `data[i]`: panics when the index is out of
range. -/
def idx (data : List Nat) (i : Nat) : RRes Nat :=
  if h : i < data.length then .ok data[i] else .error .panic

/-- Rust slice expression `&data[s..e]` (with `to_owned`/`to_vec`): panics
when `s > e` or `e > data.length`. -/
def slice (data : List Nat) (s e : Nat) : RRes (List Nat) :=
  if s ≤ e ∧ e ≤ data.length then .ok ((data.take e).drop s) else .error .panic

/-- Short-circuit conjunction `data[j] == b0 && data[j+1] == b1 && ...` as it
appears in the signature checkers of `file_checker.rs`, `reader_rar4.rs` and
`reader_zip.rs`: bytes are compared left to right and evaluation stops
(without touching later indices) at the first mismatch; each read panics when
its index is out of range. -/
def matchAt (data : List Nat) : Nat → List Nat → RRes Bool
  | _, [] => .ok true
  | j, b :: bs => do
    let d ← idx data j
    if d = b then matchAt data (j + 1) bs else .ok false

/-- Scan loop `for (i, d) in data.iter().enumerate() { if *d == trigger {...} }`
shared by `check_rar5`/`check_rar4`/`check_zip` of `file_checker.rs` and
`check_rarsign` of `reader_rar4.rs`: the iterator walks the elements of
`rest` (initially the whole list) while `i` tracks the position; at every
element equal to `trigger` the pattern bytes following position `i` are
compared with the panicking reads of `matchAt`, and on full match the loop
breaks with `(i, true)`. Falling off the end yields `(0, false)`. -/
def scanFrom (data : List Nat) (trigger : Nat) (pat : List Nat) : Nat → List Nat → RRes (Nat × Bool)
  | _, [] => .ok (0, false)
  | i, d :: rest =>
    if d = trigger then do
      let m ← matchAt data (i + 1) pat
      if m then .ok (i, true) else scanFrom data trigger pat (i + 1) rest
    else scanFrom data trigger pat (i + 1) rest

/-- RAR5 signature scanner `check_rar5` of `file_checker.rs`: scans the whole
buffer for `52 61 72 21 1A 07 01 00`. -/
def check_rar5 (data : List Nat) : RRes Bool := do
  let r ← scanFrom data 0x52 [0x61, 0x72, 0x21, 0x1A, 0x07, 0x01, 0x00] 0 data
  pure r.2

/-- RAR4 signature scanner `check_rar4` of `file_checker.rs`: scans the whole
buffer for `52 61 72 21 1A 07 00`. -/
def check_rar4 (data : List Nat) : RRes Bool := do
  let r ← scanFrom data 0x52 [0x61, 0x72, 0x21, 0x1A, 0x07, 0x00] 0 data
  pure r.2

/-- ZIP signature scanner `check_zip` of `file_checker.rs`: scans the whole
buffer for `50 4B 03 04`. -/
def check_zip (data : List Nat) : RRes Bool := do
  let r ← scanFrom data 0x50 [0x4B, 0x03, 0x04] 0 data
  pure r.2

/-- Signature detector `check_file_type` of `file_checker.rs`: RAR5 is tested
before RAR4, then ZIP, and everything else is `Unsupported`. The Rust
function returns a plain `FileType`; the error side of the result only
carries the panics of the scanners. -/
def check_file_type (buf : List Nat) : RRes FileType := do
  let r5 ← check_rar5 buf
  if r5 then pure .Rar5 else do
    let r4 ← check_rar4 buf
    if r4 then pure .Rar4 else do
      let z ← check_zip buf
      if z then pure .Zip else pure .Unsupported

/-- Loop of `read_vint` (the function is textually identical in
`reader_rar4.rs` and `reader_rar5.rs`). Mirrored faithfully:

* the guard tests `data.len() < pos + offset` (not `... + offset + 1`), so
  when it is passed the subsequent `data[pos + offset]` read panics exactly
  when `pos + offset = data.len()`;
* the guard branch sets `offset = u8::MAX` and breaks, and the final
  `(val, offset + 1)` then wraps the `u8` increment to `0` in release
  semantics, hence `.ok (val, 0)`;
* `assert!(offset < 10)` after a continuation byte is a panic;
* the fuel `10` bounds the loop trips (the assert makes an 11th trip
  impossible), so the `diverge` branch is unreachable. -/
def read_vint_loop (data : List Nat) (pos : Nat) : Nat → Nat → Nat → Nat → RRes (Nat × Nat)
  | 0, _, _, _ => .error .diverge
  | fuel + 1, off, val, shift =>
    if data.length < pos + off then .ok (val, 0)
    else do
      let d ← idx data (pos + off)
      let val2 := (((d &&& 127) <<< shift) % 18446744073709551616) ||| val
      if d &&& 128 ≠ 128 then .ok (val2, off + 1)
      else if off + 1 < 10 then read_vint_loop data pos fuel (off + 1) val2 (shift + 7)
      else .error .panic

/-- Base-128 variable-length integer decoder `read_vint(data, pos)` of
`reader_rar5.rs` (and `reader_rar4.rs`), returning the decoded value and the
number of consumed bytes. -/
def read_vint (data : List Nat) (pos : Nat) : RRes (Nat × Nat) :=
  read_vint_loop data pos 10 0 0 0

/-- Little-endian u16 field read `(buf[o+1] as u16) << 8 | (buf[o] as u16)`
as written inline throughout `reader_zip.rs` and `reader_rar4.rs`; the high
byte is read first, matching the left-to-right evaluation of the source. -/
def read_u16_le (data : List Nat) (o : Nat) : RRes Nat := do
  let b1 ← idx data (o + 1)
  let b0 ← idx data o
  pure ((b1 <<< 8) ||| b0)

/-- Little-endian u32 field read
`(buf[o+3] as u32) << 24 | (buf[o+2] as u32) << 16 | (buf[o+1] as u32) << 8 | (buf[o] as u32)`
as written inline throughout `reader_zip.rs` and `reader_rar4.rs`. -/
def read_u32_le (data : List Nat) (o : Nat) : RRes Nat := do
  let b3 ← idx data (o + 3)
  let b2 ← idx data (o + 2)
  let b1 ← idx data (o + 1)
  let b0 ← idx data o
  pure ((b3 <<< 24) ||| (b2 <<< 16) ||| (b1 <<< 8) ||| b0)

/-- UTF-8 validity of a byte list: the set of byte sequences accepted by
`std::str::from_utf8` (RFC 3629 well-formedness, surrogate range and
overlong encodings excluded). -/
def validUtf8 : List Nat → Bool
  | [] => true
  | b :: bs =>
    if b < 0x80 then validUtf8 bs
    else if 0xC2 ≤ b && b ≤ 0xDF then
      match bs with
      | c :: bs2 => (0x80 ≤ c && c ≤ 0xBF) && validUtf8 bs2
      | [] => false
    else if b = 0xE0 then
      match bs with
      | c :: d :: bs2 => (0xA0 ≤ c && c ≤ 0xBF) && (0x80 ≤ d && d ≤ 0xBF) && validUtf8 bs2
      | _ => false
    else if (0xE1 ≤ b && b ≤ 0xEC) || b = 0xEE || b = 0xEF then
      match bs with
      | c :: d :: bs2 => (0x80 ≤ c && c ≤ 0xBF) && (0x80 ≤ d && d ≤ 0xBF) && validUtf8 bs2
      | _ => false
    else if b = 0xED then
      match bs with
      | c :: d :: bs2 => (0x80 ≤ c && c ≤ 0x9F) && (0x80 ≤ d && d ≤ 0xBF) && validUtf8 bs2
      | _ => false
    else if b = 0xF0 then
      match bs with
      | c :: d :: e :: bs2 =>
        (0x90 ≤ c && c ≤ 0xBF) && (0x80 ≤ d && d ≤ 0xBF) && (0x80 ≤ e && e ≤ 0xBF) && validUtf8 bs2
      | _ => false
    else if 0xF1 ≤ b && b ≤ 0xF3 then
      match bs with
      | c :: d :: e :: bs2 =>
        (0x80 ≤ c && c ≤ 0xBF) && (0x80 ≤ d && d ≤ 0xBF) && (0x80 ≤ e && e ≤ 0xBF) && validUtf8 bs2
      | _ => false
    else if b = 0xF4 then
      match bs with
      | c :: d :: e :: bs2 =>
        (0x80 ≤ c && c ≤ 0x8F) && (0x80 ≤ d && d ≤ 0xBF) && (0x80 ≤ e && e ≤ 0xBF) && validUtf8 bs2
      | _ => false
    else false

/-- Signature probe `check_zipsign` of `reader_zip.rs`: unlike the RAR
scanners it only compares the four bytes at offset `0` and never reports a
position other than `0`. -/
def check_zipsign (data : List Nat) : RRes (Nat × Bool) :=
  if data.length < 4 then .ok (0, false)
  else if data.take 4 = [0x50, 0x4B, 0x03, 0x04] then .ok (0, true)
  else .ok (0, false)

/-- Main loop of `ZipReader::read_archive` in `reader_zip.rs`. The loop
breaks when fewer than one 30-byte header remains or the 4-byte local-file
magic is absent; otherwise the fixed fields are read (all within the
guard-checked 30 bytes), the name range is bounds-checked (error
`CorruptedArchive`), the name must be valid UTF-8 (error `CorruptedArchive`),
and an entry is appended when the compressed size is non-zero. Each
iteration advances `offset` by at least 30, so fuel `buf.length + 1` can
never be exhausted and the `diverge` branch is unreachable. -/
def zip_loop (buf : List Nat) : Nat → Nat → List MemberFile → RRes (List MemberFile)
  | 0, _, _ => .error .diverge
  | fuel + 1, offset, files =>
    if buf.length ≤ offset + 30 then .ok files
    else do
      let m ← matchAt buf offset [0x50, 0x4B, 0x03, 0x04]
      if m = false then .ok files
      else do
        let _ver ← read_u16_le buf (offset + 4)
        let _gpflag ← read_u16_le buf (offset + 6)
        let comp ← read_u16_le buf (offset + 8)
        let _ftime ← read_u16_le buf (offset + 10)
        let _fdate ← read_u16_le buf (offset + 12)
        let _crc32 ← read_u32_le buf (offset + 14)
        let csize ← read_u32_le buf (offset + 18)
        let ucsize ← read_u32_le buf (offset + 22)
        let fname_size ← read_u16_le buf (offset + 26)
        let ex_length ← read_u16_le buf (offset + 28)
        let o30 := offset + 30
        if o30 + fname_size > buf.length then .error .corruptedArchive
        else do
          let nameBytes ← slice buf o30 (o30 + fname_size)
          if validUtf8 nameBytes = false then .error .corruptedArchive
          else do
            let data_offset := o30 + fname_size + ex_length
            let offset2 := data_offset + csize
            let ctype :=
              if comp = 0 then CompressionType.Uncompress
              else if comp = 8 then CompressionType.Deflate
              else if comp = 9 then CompressionType.Deflate64
              else CompressionType.Unsupported
            let files2 :=
              if csize > 0 then
                files ++ [⟨nameBytes, nameBytes, data_offset, csize, ucsize, ctype⟩]
              else files
            zip_loop buf fuel offset2 files2

/-- `ZipReader::read_archive` of `reader_zip.rs`: probes the signature at
offset 0 and walks local-file headers from there; without the signature it
returns `Ok` having appended nothing. The caller-supplied `files` vector
starts empty, so the result is the list of appended entries. -/
def ZipReader.read_archive (buf : List Nat) : RRes (List MemberFile) := do
  let s ← check_zipsign buf
  if s.2 then zip_loop buf (buf.length + 1) s.1 [] else .ok []

/-- `ZipReader::read_data` of `reader_zip.rs`: checks `end > buf.len()` and
returns `OutOfBounds` before any slice access; `end = offset + size` is a
`usize` addition, which wraps modulo `2 ^ 64` in release semantics, and the
subsequent slice panics when `start > end`. -/
def ZipReader.read_data (buf : List Nat) (offset size : Nat) : RRes (List Nat) :=
  let start := offset
  let endPos := (start + size) % 18446744073709551616
  if endPos > buf.length then .error .outOfBounds
  else slice buf start endPos

/-- `uncomp_deflate` of `compress_deflate.rs`: same bounds check as
`ZipReader::read_data`, then decompression of the selected range. The
flate2 `DeflateDecoder` is an external crate, abstracted as the `inflate`
parameter; a failing `read_to_end` is mapped to `DecompressionError`. -/
def uncomp_deflate (inflate : List Nat → Except Unit (List Nat)) (buf : List Nat)
    (offset size : Nat) : RRes (List Nat) :=
  let start := offset
  let endPos := (start + size) % 18446744073709551616
  if endPos > buf.length then .error .outOfBounds
  else do
    let src ← slice buf start endPos
    match inflate src with
    | .ok d => pure d
    | .error _ => .error .decompressionError

/-- `Rar5Reader::read_data` of `reader_rar5.rs`: the body is the single
expression `buf[offset as usize..offset as usize + size as usize].to_owned()`
with no bounds check of its own; the slice panics whenever the (wrapping)
end exceeds the buffer length. -/
def Rar5Reader.read_data (buf : List Nat) (offset size : Nat) : RRes (List Nat) :=
  slice buf offset ((offset + size) % 18446744073709551616)

/-- `Rar4Reader::read_data` of `reader_rar4.rs`: textually identical to
`Rar5Reader::read_data`, unchecked. -/
def Rar4Reader.read_data (buf : List Nat) (offset size : Nat) : RRes (List Nat) :=
  slice buf offset ((offset + size) % 18446744073709551616)

/-- `ArchiveManager::read_uncompressed_data` of `model/archive_manager.rs`:
bounds-checked raw read, returning `OutOfBounds` before any slice access
when `end > buffer.len()`. -/
def ArchiveManager.read_uncompressed_data (buffer : List Nat) (offset size : Nat) :
    RRes (List Nat) :=
  let start := offset
  let endPos := (start + size) % 18446744073709551616
  if endPos > buffer.length then .error .outOfBounds
  else slice buffer start endPos

/-- Signature scanner `check_rarsign` of `reader_rar4.rs`: scans the whole
buffer for `52 61 72 21 1A 07 00` and reports the match position. -/
def check_rarsign (data : List Nat) : RRes (Nat × Bool) :=
  scanFrom data 0x52 [0x61, 0x72, 0x21, 0x1A, 0x07, 0x00] 0 data

/-- Volume-header read `check_headertype` of `reader_rar4.rs`. Mirrors the
source bug faithfully: both bytes of `header_flags` are taken from
`data[pos+3]` (the expression reads `data[offset]` twice before advancing),
so the flag word is `(b <<< 8) ||| b` for the single byte `b = data[pos+3]`;
`header_size` is read correctly from `data[pos+5..=pos+6]`. When fewer than
7 bytes remain, `(0, 0, 0)` is returned without reading. -/
def check_headertype (data : List Nat) (pos : Nat) : RRes (Nat × Nat × Nat) :=
  if data.length ≥ pos + 7 then do
    let htype ← idx data (pos + 2)
    let fb ← idx data (pos + 3)
    let hflags := (fb <<< 8) ||| fb
    let hsize ← read_u16_le data (pos + 5)
    pure (htype, hflags, hsize)
  else pure (0, 0, 0)

/-- NUL scan `for i in offset..(offset+nsize)` over the file-name bytes in
the FILE_HEAD branch of `Rar4Reader::read_archive`: every visited byte is
read with a panicking index; `endpos` keeps its initial value (the name
start) when no zero byte occurs, which is the source's off-by-design that
makes every NUL-free name decode as the empty string. -/
def rar4_name_end (buf : List Nat) : Nat → Nat → Nat → RRes Nat
  | 0, _, endpos => .ok endpos
  | k + 1, i, endpos => do
    let d ← idx buf i
    if d = 0 then .ok i else rar4_name_end buf k (i + 1) endpos

/-- Main block walk of `Rar4Reader::read_archive` in `reader_rar4.rs`.
Faithful points worth noting:

* the MAIN_HEAD branch debug-prints `buf[offset..offset+5]` after skipping
  the 7 volume-header bytes, so those six reads can panic;
* `offset += (hsize as usize) - 7` underflows for `hsize < 7`; the wrapping
  release semantics is modelled with `(hsize + 2^64 - 7) % 2^64`;
* the FILE_HEAD file-attribute word reads `buf[offset+1]` three times and
  `buf[offset]` once, so only the lowest two bytes are touched;
* both conditional 4-byte skips test the same `LHD_LARGE` flag `0x0100`
  (HighPackSize and HighUnpSize are skipped, never read);
* the name is decoded with `from_utf8(..).unwrap()`, a panic on invalid
  UTF-8;
* after the flag-conditional Salt (`0x0400`) and ExtTime (`0x1000`) skips a
  fixed 9-byte adjustment precedes the data area;
* a member is pushed exactly when `fattr & 0x20 != 0`.

The loop has no progress guarantee (`hsize = 7` on a non-FILE_HEAD block
repeats forever in the source), hence the fuel; `diverge` is unreachable on
the inputs used in this development. -/
def rar4_loop (buf : List Nat) : Nat → Nat → List Rar4Member → RRes (List Rar4Member)
  | 0, _, _ => .error .diverge
  | fuel + 1, offset, files =>
    if buf.length ≤ offset + 7 then .ok files
    else do
      let h ← check_headertype buf offset
      let htype := h.1
      let hflags := h.2.1
      let hsize := h.2.2
      let off7 := offset + 7
      if htype = 0x73 then do
        let _d0 ← idx buf off7
        let _d1 ← idx buf (off7 + 1)
        let _d2 ← idx buf (off7 + 2)
        let _d3 ← idx buf (off7 + 3)
        let _d4 ← idx buf (off7 + 4)
        let _d5 ← idx buf (off7 + 5)
        rar4_loop buf fuel
          ((off7 + ((hsize + 18446744073709551609) % 18446744073709551616)) % 18446744073709551616)
          files
      else if htype = 0x74 then do
        let psize ← read_u32_le buf off7
        let upsize ← read_u32_le buf (off7 + 4)
        let nsize ← read_u16_le buf (off7 + 19)
        let fa1 ← idx buf (off7 + 22)
        let fa0 ← idx buf (off7 + 21)
        let fattr := (fa1 <<< 24) ||| (fa1 <<< 16) ||| (fa1 <<< 8) ||| fa0
        let o1 := off7 + 25
        let o2 := if hflags &&& 0x0100 ≠ 0 then o1 + 4 else o1
        let o3 := if hflags &&& 0x0100 ≠ 0 then o2 + 4 else o2
        let endpos ← rar4_name_end buf nsize o3 o3
        let nameBytes ← slice buf o3 endpos
        if validUtf8 nameBytes = false then .error .panic
        else do
          let o4 := o3 + nsize
          let o5 := if hflags &&& 0x0400 ≠ 0 then o4 + 4 else o4
          let o6 := if hflags &&& 0x1000 ≠ 0 then o5 + 4 else o5
          let o7 := o6 + 9
          let data_offset := o7
          let o8 := o7 + psize
          let files2 :=
            if fattr &&& 0x20 ≠ 0 then
              files ++ [⟨nameBytes, nameBytes, data_offset, psize, upsize⟩]
            else files
          rar4_loop buf fuel o8 files2
      else if htype = 0x7a then do
        let _newsub_size ← read_u32_le buf off7
        rar4_loop buf fuel
          ((off7 + ((hsize + 18446744073709551609) % 18446744073709551616) + _newsub_size)
            % 18446744073709551616)
          files
      else
        rar4_loop buf fuel
          ((off7 + ((hsize + 18446744073709551609) % 18446744073709551616)) % 18446744073709551616)
          files

/-- `Rar4Reader::read_archive` of `reader_rar4.rs`: scans for the RAR4
signature, then walks blocks from just past it; without a signature it
returns `Ok` having appended nothing. -/
def Rar4Reader.read_archive (buf : List Nat) : RRes (List Rar4Member) := do
  let s ← check_rarsign buf
  if s.2 then rar4_loop buf (buf.length + 1) (s.1 + 7) [] else .ok []

/-- ASCII decimal-digit test, the byte-level meaning of the regex class
`\d` of `sort_filename.rs` on ASCII input. -/
def isDigitB (b : Nat) : Bool := 0x30 ≤ b && b ≤ 0x39

/-- Zero padding `format!("{x:0>30}", ...)` applied by `PaddProc` of
`sort_filename.rs` to one maximal digit run: left-pad with ASCII `0` to
width 30 (runs of 30 or more digits are unchanged). -/
def padRun (run : List Nat) : List Nat := List.replicate (30 - run.length) 0x30 ++ run

/-- Byte-level `Regex::new(r"(\d+)").replace_all(s, PaddProc)` of
`sort_filename.rs`: every maximal run of decimal digits is replaced by its
zero-padded form. `run` accumulates the current digit run in reverse. -/
def natKeyGo (run : List Nat) : List Nat → List Nat
  | [] => if run.isEmpty then [] else padRun run.reverse
  | b :: bs =>
    if isDigitB b then natKeyGo (b :: run) bs
    else if run.isEmpty then b :: natKeyGo [] bs
    else padRun run.reverse ++ (b :: natKeyGo [] bs)

/-- ASCII lower-casing of one byte, the byte-level meaning of Rust
`str::to_lowercase` on the ASCII range (the inputs of the verified property
are ASCII). -/
def lowerB (b : Nat) : Nat := if 0x41 ≤ b && b ≤ 0x5A then b + 32 else b

/-- Sort key of one path in `sort_filename.rs`: digit runs zero-padded to
width 30, then lower-cased. -/
def natKey (s : List Nat) : List Nat := (natKeyGo [] s).map lowerB

/-- Lexicographic comparison of byte lists, the byte-level meaning of Rust
`String::cmp` (UTF-8 byte order), as `≤`. -/
def lexLe : List Nat → List Nat → Bool
  | [], _ => true
  | _ :: _, [] => false
  | a :: xs, b :: ys => if a < b then true else if b < a then false else lexLe xs ys

/-- Comparator of `sort_filename.rs`: compare the transformed, lower-cased
filepaths. -/
def memberLe (a b : MemberFile) : Bool := lexLe (natKey a.filepath) (natKey b.filepath)

/-- Stable insertion of one element into a sorted list: `x` goes before the
first element `y` with `memberLe x y` (so before later equal keys,
preserving original order of equals). -/
def insertMember (x : MemberFile) : List MemberFile → List MemberFile
  | [] => [x]
  | y :: ys => if memberLe x y then x :: y :: ys else y :: insertMember x ys

/-- Stable sort by `memberLe`; agrees with Rust's stable `sort_by` on the
total preorder induced by the comparator. -/
def sortMembers : List MemberFile → List MemberFile
  | [] => []
  | x :: xs => insertMember x (sortMembers xs)

/-- `sort_filename` of `sort_filename.rs`: sorts the member list in place by
the padded, lower-cased path comparator; modelled as returning the sorted
list. -/
def sort_filename (files : List MemberFile) : List MemberFile := sortMembers files

/-- Modelled from the spec (section 4.2 and the vint round-trip property of
section 8), not from the source: the base-128 vint encoder. Each byte
carries the next 7 low-order bits, little-endian across bytes, with the
high bit as continuation flag. The source repository contains no encoder;
this definition is the specification side of the round-trip claim. -/
def encodeVint (v : Nat) : List Nat :=
  if h : v < 128 then [v] else (v % 128 + 128) :: encodeVint (v / 128)
termination_by v
decreasing_by exact Nat.div_lt_self (by omega) (by omega)

/-- RAR5 signature bytes `52 61 72 21 1A 07 01 00`. -/
def rar5sig : List Nat := [0x52, 0x61, 0x72, 0x21, 0x1A, 0x07, 0x01, 0x00]

/-- RAR4 signature bytes `52 61 72 21 1A 07 00`. -/
def rar4sig : List Nat := [0x52, 0x61, 0x72, 0x21, 0x1A, 0x07, 0x00]

/-- ZIP local-file-header magic `50 4B 03 04`. -/
def zipsig : List Nat := [0x50, 0x4B, 0x03, 0x04]

/-- Concrete 31-byte ZIP buffer: one well-formed local file header (method 0,
name `a`, extra empty) whose declared compressed and uncompressed sizes are
100, although only the header itself is present — the declared data range
`[31, 131)` extends 100 bytes past the end of the buffer. -/
def zipOverBuf : List Nat :=
  [0x50, 0x4B, 0x03, 0x04, 0, 0, 0, 0, 0, 0, 0, 0, 0, 0, 0, 0, 0, 0,
   100, 0, 0, 0, 100, 0, 0, 0, 1, 0, 0, 0, 0x61]

/-- The member record that `ZipReader::read_archive` emits for `zipOverBuf`. -/
def zipOverMember : MemberFile :=
  ⟨[0x61], [0x61], 31, 100, 100, .Uncompress⟩

/-- Concrete 40-byte RAR4 buffer: signature, then one FILE_HEAD block
(`htype` `0x74`, flag byte 0, `hsize` 0) with PackSize 0, UnpSize 0,
NameSize 1, name byte `a`, and the low file-attribute byte `a` at index 35
(the byte the parser's attribute test actually consults). -/
def c4buf (a : Nat) : List Nat :=
  [0x52, 0x61, 0x72, 0x21, 0x1A, 0x07, 0x00,
   0, 0, 0x74, 0, 0, 0, 0,
   0, 0, 0, 0, 0, 0, 0, 0, 0, 0, 0, 0, 0, 0, 0, 0, 0, 0, 0,
   1, 0, a, 0, 0, 0, 0x61]

/-- The member record `Rar4Reader::read_archive` emits for `c4buf` whenever
it emits one: empty name (no NUL byte, so `endpos` stays at the name start),
data offset 49, sizes 0. -/
def c4member : Rar4Member := ⟨[], [], 49, 0, 0⟩

/-- Concrete 48-byte RAR4 buffer: signature, then one FILE_HEAD block whose
flag byte at index 10 is `0x01`, which the duplicated-byte flag read turns
into `hflags = 0x0101`, setting `LHD_LARGE` (`0x0100`). PackSize is 5,
UnpSize is 6, the attribute byte is `0x20` (archive bit, so the member is
emitted), and the skipped HighPackSize/HighUnpSize low bytes are the
parameters `hp`/`hu` at indices 39 and 43. -/
def c5buf (hp hu : Nat) : List Nat :=
  [0x52, 0x61, 0x72, 0x21, 0x1A, 0x07, 0x00,
   0, 0, 0x74, 1, 0, 0, 0,
   5, 0, 0, 0, 6, 0, 0, 0, 0, 0, 0, 0, 0, 0, 0, 0, 0, 0, 0,
   1, 0, 0x20, 0, 0, 0, hp, 0, 0, 0, hu, 0, 0, 0, 0x61]

/-- The member record `Rar4Reader::read_archive` emits for `c5buf`: the
sizes keep only the low 32-bit values 5 and 6 regardless of the high
words. -/
def c5member : Rar4Member := ⟨[], [], 57, 5, 6⟩

/-- UTF-8 bytes of the path `page10.jpg`. -/
def page10path : List Nat := [0x70, 0x61, 0x67, 0x65, 0x31, 0x30, 0x2E, 0x6A, 0x70, 0x67]

/-- UTF-8 bytes of the path `page2.jpg`. -/
def page2path : List Nat := [0x70, 0x61, 0x67, 0x65, 0x32, 0x2E, 0x6A, 0x70, 0x67]

/-- UTF-8 bytes of the path `page1.jpg`. -/
def page1path : List Nat := [0x70, 0x61, 0x67, 0x65, 0x31, 0x2E, 0x6A, 0x70, 0x67]

/-- Member with a given filepath and trivial other fields, for the sorting
property. -/
def memberOfPath (p : List Nat) : MemberFile := ⟨p, p, 0, 0, 0, .Uncompress⟩

/-! ## Helper lemmas -/

theorem rres_bind_ok {α β : Type} (a : α) (f : α → RRes β) :
    (Except.ok a : RRes α) >>= f = f a := rfl

theorem rres_bind_err {α β : Type} (e : RErr) (f : α → RRes β) :
    (Except.error e : RRes α) >>= f = .error e := rfl

theorem getElem_append_cons (first : List Nat) (d : Nat) (rest : List Nat)
    (h : first.length < (first ++ d :: rest).length) :
    (first ++ d :: rest)[first.length] = d := by
  rw [List.getElem_append_right (Nat.le_refl _)]
  simp

theorem idx_append_cons (first : List Nat) (d : Nat) (rest : List Nat) :
    idx (first ++ d :: rest) first.length = .ok d := by
  have h : first.length < (first ++ d :: rest).length := by simp
  simp only [idx]
  rw [dif_pos h, getElem_append_cons]

theorem matchAt_pat_present : ∀ (pat pre suf : List Nat),
    matchAt (pre ++ (pat ++ suf)) pre.length pat = .ok true := by
  intro pat
  induction pat with
  | nil => intro pre suf; rfl
  | cons b bs ih =>
    intro pre suf
    have h1 : pre ++ ((b :: bs) ++ suf) = pre ++ b :: (bs ++ suf) := by simp
    have h2 : pre ++ b :: (bs ++ suf) = (pre ++ [b]) ++ (bs ++ suf) := by simp
    have h3 : pre.length + 1 = (pre ++ [b]).length := by simp
    rw [h1]
    show (idx (pre ++ b :: (bs ++ suf)) pre.length) >>= _ = _
    rw [idx_append_cons, rres_bind_ok]
    simp only [if_pos rfl]
    rw [h2, h3]
    exact ih (pre ++ [b]) suf

theorem matchAt_pat_mismatch : ∀ (patA pre : List Nat) (q p : Nat) (patB suf : List Nat),
    q ≠ p → matchAt (pre ++ (patA ++ (q :: suf))) pre.length (patA ++ (p :: patB)) = .ok false := by
  intro patA
  induction patA with
  | nil =>
    intro pre q p patB suf hqp
    simp only [List.nil_append]
    show (idx (pre ++ q :: suf) pre.length) >>= _ = _
    rw [idx_append_cons, rres_bind_ok]
    simp [hqp]
  | cons a as ih =>
    intro pre q p patB suf hqp
    have h1 : pre ++ ((a :: as) ++ (q :: suf)) = pre ++ a :: (as ++ (q :: suf)) := by simp
    have h2 : pre ++ a :: (as ++ (q :: suf)) = (pre ++ [a]) ++ (as ++ (q :: suf)) := by simp
    have h3 : pre.length + 1 = (pre ++ [a]).length := by simp
    rw [h1]
    show (idx (pre ++ a :: (as ++ (q :: suf))) pre.length) >>= _ = _
    rw [idx_append_cons, rres_bind_ok]
    simp only [if_pos rfl]
    rw [h2, h3]
    exact ih (pre ++ [a]) q p patB suf hqp

theorem scanFrom_no_trigger (data : List Nat) (trig : Nat) (pat : List Nat) :
    ∀ (rest : List Nat) (i : Nat), (∀ x ∈ rest, x ≠ trig) →
    scanFrom data trig pat i rest = .ok (0, false) := by
  intro rest
  induction rest with
  | nil => intro i _; rfl
  | cons d ds ih =>
    intro i h
    have hd : d ≠ trig := h d (List.mem_cons_self d ds)
    show (if d = trig then _ else scanFrom data trig pat (i + 1) ds) = _
    rw [if_neg hd]
    exact ih (i + 1) (fun x hx => h x (List.mem_cons_of_mem d hx))

theorem scanFrom_cons_hit (data : List Nat) (trig : Nat) (pat : List Nat) (i : Nat)
    (tail : List Nat) (hm : matchAt data (i + 1) pat = .ok true) :
    scanFrom data trig pat i (trig :: tail) = .ok (i, true) := by
  show (if trig = trig then _ else _) = _
  rw [if_pos rfl]
  show (matchAt data (i + 1) pat) >>= _ = _
  rw [hm, rres_bind_ok]
  rfl

theorem scanFrom_cons_hit_mismatch (data : List Nat) (trig : Nat) (pat : List Nat) (i : Nat)
    (tail : List Nat) (hm : matchAt data (i + 1) pat = .ok false) :
    scanFrom data trig pat i (trig :: tail) = scanFrom data trig pat (i + 1) tail := by
  show (if trig = trig then _ else _) = _
  rw [if_pos rfl]
  show (matchAt data (i + 1) pat) >>= _ = _
  rw [hm, rres_bind_ok]
  rfl

theorem scanFrom_cons_skip (data : List Nat) (trig : Nat) (pat : List Nat) (i : Nat)
    (d : Nat) (tail : List Nat) (hd : d ≠ trig) :
    scanFrom data trig pat i (d :: tail) = scanFrom data trig pat (i + 1) tail := by
  show (if d = trig then _ else _) = _
  rw [if_neg hd]

theorem check_rar5_of_rar5sig (rest : List Nat) :
    check_rar5 (rar5sig ++ rest) = .ok true := by
  have h := matchAt_pat_present [0x61, 0x72, 0x21, 0x1A, 0x07, 0x01, 0x00] [0x52] rest
  simp only [List.cons_append, List.nil_append] at h
  show (scanFrom (rar5sig ++ rest) 0x52 _ 0 (rar5sig ++ rest)) >>= _ = _
  simp only [rar5sig, List.cons_append, List.nil_append]
  rw [scanFrom_cons_hit _ _ _ _ _ (by simpa using h), rres_bind_ok]
  rfl

theorem check_rar5_of_rar4sig (rest : List Nat) (hrest : ∀ x ∈ rest, x ≠ 0x52) :
    check_rar5 (rar4sig ++ rest) = .ok false := by
  have h := matchAt_pat_mismatch [0x61, 0x72, 0x21, 0x1A, 0x07] [0x52] 0x00 0x01 [0x00] rest
    (by omega)
  simp only [List.cons_append, List.nil_append] at h
  show (scanFrom (rar4sig ++ rest) 0x52 _ 0 (rar4sig ++ rest)) >>= _ = _
  simp only [rar4sig, List.cons_append, List.nil_append]
  rw [scanFrom_cons_hit_mismatch _ _ _ _ _ (by simpa using h)]
  rw [scanFrom_cons_skip _ _ _ _ _ _ (by omega)]
  rw [scanFrom_cons_skip _ _ _ _ _ _ (by omega)]
  rw [scanFrom_cons_skip _ _ _ _ _ _ (by omega)]
  rw [scanFrom_cons_skip _ _ _ _ _ _ (by omega)]
  rw [scanFrom_cons_skip _ _ _ _ _ _ (by omega)]
  rw [scanFrom_cons_skip _ _ _ _ _ _ (by omega)]
  rw [scanFrom_no_trigger _ _ _ _ _ hrest, rres_bind_ok]
  rfl

theorem check_rar4_of_rar4sig (rest : List Nat) :
    check_rar4 (rar4sig ++ rest) = .ok true := by
  have h := matchAt_pat_present [0x61, 0x72, 0x21, 0x1A, 0x07, 0x00] [0x52] rest
  simp only [List.cons_append, List.nil_append] at h
  show (scanFrom (rar4sig ++ rest) 0x52 _ 0 (rar4sig ++ rest)) >>= _ = _
  simp only [rar4sig, List.cons_append, List.nil_append]
  rw [scanFrom_cons_hit _ _ _ _ _ (by simpa using h), rres_bind_ok]
  rfl

theorem check_rar5_no_trigger (buf : List Nat) (h : ∀ x ∈ buf, x ≠ 0x52) :
    check_rar5 buf = .ok false := by
  show (scanFrom buf 0x52 _ 0 buf) >>= _ = _
  rw [scanFrom_no_trigger _ _ _ _ _ h, rres_bind_ok]
  rfl

theorem check_rar4_no_trigger (buf : List Nat) (h : ∀ x ∈ buf, x ≠ 0x52) :
    check_rar4 buf = .ok false := by
  show (scanFrom buf 0x52 _ 0 buf) >>= _ = _
  rw [scanFrom_no_trigger _ _ _ _ _ h, rres_bind_ok]
  rfl

theorem check_zip_no_trigger (buf : List Nat) (h : ∀ x ∈ buf, x ≠ 0x50) :
    check_zip buf = .ok false := by
  show (scanFrom buf 0x50 _ 0 buf) >>= _ = _
  rw [scanFrom_no_trigger _ _ _ _ _ h, rres_bind_ok]
  rfl

theorem check_zip_of_zipsig (rest : List Nat) :
    check_zip (zipsig ++ rest) = .ok true := by
  have h := matchAt_pat_present [0x4B, 0x03, 0x04] [0x50] rest
  simp only [List.cons_append, List.nil_append] at h
  show (scanFrom (zipsig ++ rest) 0x50 _ 0 (zipsig ++ rest)) >>= _ = _
  simp only [zipsig, List.cons_append, List.nil_append]
  rw [scanFrom_cons_hit _ _ _ _ _ (by simpa using h), rres_bind_ok]
  rfl

theorem check_rar4_of_zipsig (rest : List Nat) (hrest : ∀ x ∈ rest, x ≠ 0x52) :
    check_rar4 (zipsig ++ rest) = .ok false := by
  apply check_rar4_no_trigger
  intro x hx
  simp only [zipsig, List.mem_append, List.mem_cons, List.not_mem_nil, or_false] at hx
  rcases hx with (rfl | rfl | rfl | rfl) | hm
  · omega
  · omega
  · omega
  · omega
  · exact hrest x hm

theorem check_rar5_of_zipsig (rest : List Nat) (hrest : ∀ x ∈ rest, x ≠ 0x52) :
    check_rar5 (zipsig ++ rest) = .ok false := by
  apply check_rar5_no_trigger
  intro x hx
  simp only [zipsig, List.mem_append, List.mem_cons, List.not_mem_nil, or_false] at hx
  rcases hx with (rfl | rfl | rfl | rfl) | hm
  · omega
  · omega
  · omega
  · omega
  · exact hrest x hm

theorem or_mul_two_pow_add : ∀ (n a b : Nat), a < 2 ^ n → (b * 2 ^ n) ||| a = b * 2 ^ n + a := by
  intro n
  induction n with
  | zero =>
    intro a b ha
    have h0 : a = 0 := by omega
    subst h0
    simp
  | succ n ih =>
    intro a b ha
    have hx2 : b * 2 ^ (n + 1) = 2 * (b * 2 ^ n) := by ring
    have hxm : (b * 2 ^ (n + 1)) % 2 = 0 := by
      rw [hx2]; exact Nat.mul_mod_right 2 _
    have hdiv2 : (b * 2 ^ (n + 1)) / 2 = b * 2 ^ n := by
      rw [hx2]; exact Nat.mul_div_cancel_left _ (by omega)
    have hor_div : (b * 2 ^ (n + 1) ||| a) / 2 = (b * 2 ^ n) ||| (a / 2) := by
      rw [Nat.or_div_two, hdiv2]
    have hor_mod : (b * 2 ^ (n + 1) ||| a) % 2 = a % 2 := by
      rcases Nat.mod_two_eq_zero_or_one a with h | h
      · have h2 : ¬((b * 2 ^ (n + 1) ||| a) % 2 = 1) := by
          rw [Nat.or_mod_two_eq_one]
          omega
        omega
      · have h2 : (b * 2 ^ (n + 1) ||| a) % 2 = 1 := by
          rw [Nat.or_mod_two_eq_one]
          right
          exact h
        omega
    have hlt : a / 2 < 2 ^ n := by
      have h2 : (2 : Nat) ^ (n + 1) = 2 ^ n * 2 := by ring
      omega
    have hih : (b * 2 ^ n) ||| (a / 2) = b * 2 ^ n + a / 2 := ih (a / 2) b hlt
    have hsplit : b * 2 ^ (n + 1) ||| a
        = 2 * ((b * 2 ^ (n + 1) ||| a) / 2) + (b * 2 ^ (n + 1) ||| a) % 2 := by
      omega
    rw [hsplit, hor_div, hor_mod, hih, hx2]
    omega

theorem and127_eq_mod (d : Nat) : d &&& 127 = d % 128 := by
  have h := Nat.and_pow_two_sub_one_eq_mod d 7
  norm_num at h
  exact h

theorem and128_of_lt (d : Nat) (h : d < 128) : d &&& 128 = 0 := by
  have h2 : d &&& 2 ^ 7 = (d.testBit 7).toNat * 2 ^ 7 := Nat.and_two_pow d 7
  have h3 : d.testBit 7 = false := Nat.testBit_lt_two_pow (by omega)
  rw [h3] at h2
  norm_num at h2
  exact h2

theorem and128_of_ge (d : Nat) (h1 : 128 ≤ d) (h2 : d < 256) : d &&& 128 = 128 := by
  have ha : d &&& 2 ^ 7 = (d.testBit 7).toNat * 2 ^ 7 := Nat.and_two_pow d 7
  have hb : d.testBit 7 = true := by
    rw [Nat.testBit_to_div_mod]
    simp only [decide_eq_true_eq]
    norm_num
    omega
  rw [hb] at ha
  norm_num at ha
  exact ha

theorem encodeVint_length_pos (v : Nat) : 0 < (encodeVint v).length := by
  rw [encodeVint]
  split
  · simp
  · simp

theorem read_vint_encode_aux : ∀ n : Nat, 1 ≤ n → ∀ v : Nat, v < 2 ^ (7 * n) →
    ∀ (first : List Nat) (val : Nat), first.length + n ≤ 9 → val < 2 ^ (7 * first.length) →
    read_vint_loop (first ++ encodeVint v) 0 (10 - first.length) first.length val
      (7 * first.length)
      = .ok (val + v * 2 ^ (7 * first.length), first.length + (encodeVint v).length) := by
  intro n
  induction n with
  | zero => intro h; omega
  | succ n ih =>
    intro _ v hv first val hlen hval
    by_cases hv128 : v < 128
    · have henc : encodeVint v = [v] := by rw [encodeVint]; rw [dif_pos hv128]
      rw [henc]
      have hk : 10 - first.length = (9 - first.length) + 1 := by omega
      rw [hk]
      have hlen2 : ¬((first ++ [v]).length < 0 + first.length) := by simp
      show (if (first ++ [v]).length < 0 + first.length then _ else _) = _
      rw [if_neg hlen2]
      show (idx (first ++ [v]) (0 + first.length)) >>= _ = _
      rw [Nat.zero_add]
      rw [idx_append_cons first v [], rres_bind_ok]
      have hand : v &&& 127 = v := by rw [and127_eq_mod]; omega
      have hmod : (v <<< (7 * first.length)) % 18446744073709551616
          = v * 2 ^ (7 * first.length) := by
        rw [Nat.shiftLeft_eq]
        apply Nat.mod_eq_of_lt
        have h1 : 2 ^ (7 * first.length) ≤ 2 ^ 56 :=
          Nat.pow_le_pow_right (by omega) (by omega)
        calc v * 2 ^ (7 * first.length) ≤ 127 * 2 ^ 56 := Nat.mul_le_mul (by omega) h1
          _ < 18446744073709551616 := by norm_num
      have hor : v * 2 ^ (7 * first.length) ||| val
          = v * 2 ^ (7 * first.length) + val :=
        or_mul_two_pow_add (7 * first.length) val v hval
      rw [hand, hmod, hor]
      have hterm : v &&& 128 = 0 := and128_of_lt v hv128
      have hne : v &&& 128 ≠ 128 := by omega
      rw [if_pos hne]
      simp [Nat.add_comm]
    · have hn1 : 1 ≤ n := by
        by_contra hc
        have hn0 : n = 0 := by omega
        subst hn0
        norm_num at hv
        omega
      have henc : encodeVint v = (v % 128 + 128) :: encodeVint (v / 128) := by
        rw [encodeVint]; rw [dif_neg hv128]
      rw [henc]
      have hk : 10 - first.length = (9 - first.length) + 1 := by omega
      rw [hk]
      have hlen2 : ¬((first ++ (v % 128 + 128) :: encodeVint (v / 128)).length
          < 0 + first.length) := by simp
      show (if (first ++ (v % 128 + 128) :: encodeVint (v / 128)).length
          < 0 + first.length then _ else _) = _
      rw [if_neg hlen2]
      show (idx (first ++ (v % 128 + 128) :: encodeVint (v / 128)) (0 + first.length)) >>= _ = _
      rw [Nat.zero_add]
      rw [idx_append_cons first (v % 128 + 128) (encodeVint (v / 128)), rres_bind_ok]
      have hand : (v % 128 + 128) &&& 127 = v % 128 := by
        rw [and127_eq_mod]; omega
      have hmod : ((v % 128) <<< (7 * first.length)) % 18446744073709551616
          = (v % 128) * 2 ^ (7 * first.length) := by
        rw [Nat.shiftLeft_eq]
        apply Nat.mod_eq_of_lt
        have h1 : 2 ^ (7 * first.length) ≤ 2 ^ 56 :=
          Nat.pow_le_pow_right (by omega) (by omega)
        calc (v % 128) * 2 ^ (7 * first.length) ≤ 127 * 2 ^ 56 :=
            Nat.mul_le_mul (by omega) h1
          _ < 18446744073709551616 := by norm_num
      have hor : (v % 128) * 2 ^ (7 * first.length) ||| val
          = (v % 128) * 2 ^ (7 * first.length) + val :=
        or_mul_two_pow_add (7 * first.length) val (v % 128) hval
      rw [hand, hmod, hor]
      have hcont : (v % 128 + 128) &&& 128 = 128 :=
        and128_of_ge (v % 128 + 128) (by omega) (by omega)
      have hne : ¬((v % 128 + 128) &&& 128 ≠ 128) := by omega
      rw [if_neg hne]
      have hlt10 : first.length + 1 < 10 := by omega
      rw [if_pos hlt10]
      have hdata : first ++ (v % 128 + 128) :: encodeVint (v / 128)
          = (first ++ [v % 128 + 128]) ++ encodeVint (v / 128) := by
        rw [List.append_cons]
      have hfl : (first ++ [v % 128 + 128]).length = first.length + 1 := by simp
      have hdiv : v / 128 < 2 ^ (7 * n) := by
        have h1 : (2 : Nat) ^ (7 * (n + 1)) = 2 ^ (7 * n) * 128 := by
          have h7 : 7 * (n + 1) = 7 * n + 7 := by ring
          rw [h7, Nat.pow_add]
          try norm_num
        rw [h1] at hv
        omega
      have hval2 : (v % 128) * 2 ^ (7 * first.length) + val
          < 2 ^ (7 * (first.length + 1)) := by
        have h1 : (v % 128) * 2 ^ (7 * first.length) ≤ 127 * 2 ^ (7 * first.length) :=
          Nat.mul_le_mul_right _ (by omega)
        have h2 : (2 : Nat) ^ (7 * (first.length + 1)) = 2 ^ (7 * first.length) * 128 := by
          have h7 : 7 * (first.length + 1) = 7 * first.length + 7 := by ring
          rw [h7, Nat.pow_add]
          try norm_num
        rw [h2]
        have h3 := hval
        omega
      have hih := ih hn1 (v / 128) hdiv (first ++ [v % 128 + 128])
        ((v % 128) * 2 ^ (7 * first.length) + val)
        (by rw [hfl]; omega) (by rw [hfl]; exact hval2)
      rw [hfl] at hih
      have hk2 : 9 - first.length = 10 - (first.length + 1) := by omega
      rw [hk2]
      rw [← hdata] at hih
      have hsh : 7 * (first.length + 1) = 7 * first.length + 7 := by ring
      rw [hsh] at hih
      rw [hih]
      have hvadd : (v % 128) * 2 ^ (7 * first.length) + val
            + v / 128 * 2 ^ (7 * first.length + 7)
          = val + v * 2 ^ (7 * first.length) := by
        have h1 : (2 : Nat) ^ (7 * first.length + 7) = 2 ^ (7 * first.length) * 128 := by
          rw [Nat.pow_add]
          try norm_num
        rw [h1]
        have h2 : v / 128 * (2 ^ (7 * first.length) * 128)
            = (128 * (v / 128)) * 2 ^ (7 * first.length) := by ring
        rw [h2]
        have h3 : (v % 128) * 2 ^ (7 * first.length)
              + (128 * (v / 128)) * 2 ^ (7 * first.length)
            = v * 2 ^ (7 * first.length) := by
          rw [← Nat.add_mul, Nat.mod_add_div v 128]
        omega
      rw [hvadd]
      have hlenadd : first.length + 1 + (encodeVint (v / 128)).length
          = first.length + ((v % 128 + 128) :: encodeVint (v / 128)).length := by
        simp
        omega
      rw [hlenadd]

/-! ## Claim theorems -/

/-- C1 (code_bug): the claim states that every parser entry point returns a
typed error and never panics. The signature-detection entry point
`check_file_type` already violates this: on the one-byte buffer `[0x52]` the
scanner `check_rar5` evaluates `data[i+1]` with no bounds check, an index
out of range, i.e. a Rust panic. This theorem evaluates the embedded code at
that failing input. -/
theorem claim1_parser_entry_panics_on_garbage :
    check_file_type [0x52] = .error .panic := by decide

/-- C2 (counterexample): the claim says every data-access primitive returns
`OutOfBounds` for a request past the end of the buffer. `Rar5Reader::read_data`
has no bounds check at all: on the empty buffer with `size = 1` it panics on
the slice instead of returning the typed error. -/
theorem claim2_counterexample :
    Rar5Reader.read_data [] 0 1 = .error .panic ∧
    Rar5Reader.read_data [] 0 1 ≠ .error .outOfBounds := by decide

/-- C2 (amended): for every request with `offset + size` greater than the
buffer length (and the `u64` addition not overflowing), the checked
primitives `ZipReader::read_data` and `uncomp_deflate` return `OutOfBounds`
before any slice access, while the unchecked `Rar5Reader::read_data` and
`Rar4Reader::read_data` panic on the slice. -/
theorem claim2_amended :
    ∀ (inflate : List Nat → Except Unit (List Nat)) (buf : List Nat) (offset size : Nat),
      buf.length < offset + size → offset + size < 18446744073709551616 →
      ZipReader.read_data buf offset size = .error .outOfBounds ∧
      uncomp_deflate inflate buf offset size = .error .outOfBounds ∧
      Rar5Reader.read_data buf offset size = .error .panic ∧
      Rar4Reader.read_data buf offset size = .error .panic := by
  intro inflate buf offset size h1 h2
  have hm : (offset + size) % 18446744073709551616 = offset + size := Nat.mod_eq_of_lt h2
  refine ⟨?_, ?_, ?_, ?_⟩
  · simp only [ZipReader.read_data, hm]
    rw [if_pos h1]
  · simp only [uncomp_deflate, hm]
    rw [if_pos h1]
  · simp only [Rar5Reader.read_data, slice, hm]
    rw [if_neg (by omega)]
  · simp only [Rar4Reader.read_data, slice, hm]
    rw [if_neg (by omega)]

/-- C2 (witness): the amended statement instantiated at the empty buffer,
`offset = 0`, `size = 1`. -/
theorem claim2_witness :
    ZipReader.read_data [] 0 1 = .error .outOfBounds ∧
    uncomp_deflate (fun _ => .error ()) [] 0 1 = .error .outOfBounds ∧
    Rar5Reader.read_data [] 0 1 = .error .panic ∧
    Rar4Reader.read_data [] 0 1 = .error .panic :=
  claim2_amended (fun _ => .error ()) [] 0 1 (by decide) (by decide)

/-- C3 (counterexample): parsing `zipOverBuf` succeeds and returns a member
whose declared range `offset + size = 131` exceeds the 31-byte buffer — the
header-declared range is emitted silently, not reported as an error. -/
theorem claim3_counterexample :
    ZipReader.read_archive zipOverBuf = .ok [zipOverMember] ∧
    zipOverMember.offset + zipOverMember.size > zipOverBuf.length := by decide

/-- C3 (amended): the parsers do not validate `offset + size` against the
buffer length, so a header declaring a range past the end produces an `Ok`
member list containing the out-of-range record; the invariant is enforced
only at access time, where `ArchiveManager::read_uncompressed_data` returns
`OutOfBounds`. -/
theorem claim3_amended :
    ∀ (buffer : List Nat) (offset size : Nat),
      buffer.length < offset + size → offset + size < 18446744073709551616 →
      ArchiveManager.read_uncompressed_data buffer offset size = .error .outOfBounds := by
  intro buffer offset size h1 h2
  simp only [ArchiveManager.read_uncompressed_data, Nat.mod_eq_of_lt h2]
  rw [if_pos h1]

/-- C3 (witness): the amended statement instantiated at the out-of-range
member produced by the counterexample buffer. -/
theorem claim3_witness :
    ArchiveManager.read_uncompressed_data zipOverBuf zipOverMember.offset zipOverMember.size
      = .error .outOfBounds :=
  claim3_amended zipOverBuf zipOverMember.offset zipOverMember.size (by decide) (by decide)

/-- C4 (counterexample): a RAR4 file header whose attribute byte is `0x30`
has the directory bit `0x10` set, yet a MemberFile is emitted — the parser
tests the archive bit `0x20`, never the directory bit. -/
theorem claim4_counterexample :
    ((0x30 : Nat) &&& 0x10 ≠ 0) ∧
    Rar4Reader.read_archive (c4buf 0x30) = .ok [c4member] := by decide

set_option maxRecDepth 1000000 in
set_option maxHeartbeats 4000000 in
/-- C4 (amended): for every attribute byte, `Rar4Reader::read_archive`
emits a MemberFile for the `c4buf` file header exactly when the attribute's
`0x20` (archive) bit is set; the directory bit `0x10` is never consulted, so
directory entries with the archive bit set are emitted and plain files
without it are dropped. -/
theorem claim4_amended : ∀ a : Nat, a < 256 →
    Rar4Reader.read_archive (c4buf a)
      = .ok (if a &&& 0x20 = 0 then [] else [c4member]) := by decide

/-- C4 (witness): the amended statement at the attribute byte `0x10`
(directory bit only): no member is emitted. -/
theorem claim4_witness : (0x10 : Nat) < 256 ∧
    Rar4Reader.read_archive (c4buf 0x10)
      = .ok (if (0x10 : Nat) &&& 0x20 = 0 then [] else [c4member]) :=
  ⟨by decide, claim4_amended 0x10 (by decide)⟩

/-- C5 (counterexample): a RAR4 file header with `LHD_LARGE` set,
HighPackSize low byte 1 and HighUnpSize low byte 2, PackSize 5 and UnpSize 6
produces a member with `size = 5` and `fsize = 6` — not
`(1 <<< 32) ||| 5` and `(2 <<< 32) ||| 6` as the claim requires: the high
words are skipped by the parser, never read or combined. -/
theorem claim5_counterexample :
    Rar4Reader.read_archive (c5buf 1 2) = .ok [c5member] ∧
    c5member.size ≠ (1 <<< 32) ||| 5 ∧
    c5member.fsize ≠ (2 <<< 32) ||| 6 := by decide

/-- C5 (amended): when `LHD_LARGE` is set the parser only skips the 8 bytes
of HighPackSize/HighUnpSize; the emitted `size`/`fsize` keep the low 32-bit
PackSize/UnpSize values, unchanged across different high-word bytes. -/
theorem claim5_amended :
    Rar4Reader.read_archive (c5buf 1 2) = .ok [c5member] ∧
    Rar4Reader.read_archive (c5buf 0 0) = .ok [c5member] ∧
    Rar4Reader.read_archive (c5buf 255 255) = .ok [c5member] := by decide

/-- C6 (counterexample): on the empty buffer `check_file_type` returns
`Unsupported` normally; it does not fail with `CorruptedArchive` as the
claim states (the function has no error path at all besides panics). -/
theorem claim6_counterexample :
    check_file_type [] = .ok .Unsupported ∧
    check_file_type [] ≠ .error .corruptedArchive := by decide

/-- C6 (amended): signature detection scans the whole buffer with panicking
lookahead reads, so the classification clauses hold in the forms: a buffer
beginning with the RAR5 magic always classifies `Rar5`; one beginning with
the RAR4 magic classifies `Rar4` when the remainder contains no `0x52`
byte; one beginning with the ZIP magic classifies `Zip` when the remainder
contains no `0x52`; and the empty buffer — like every buffer containing
neither `0x52` nor `0x50` — classifies `Unsupported` (no `CorruptedArchive`
error exists). -/
theorem claim6_amended :
    (∀ rest : List Nat, check_file_type (rar5sig ++ rest) = .ok .Rar5) ∧
    (∀ rest : List Nat, (∀ x ∈ rest, x ≠ 0x52) →
      check_file_type (rar4sig ++ rest) = .ok .Rar4) ∧
    (∀ rest : List Nat, (∀ x ∈ rest, x ≠ 0x52) →
      check_file_type (zipsig ++ rest) = .ok .Zip) ∧
    (∀ buf : List Nat, (∀ x ∈ buf, x ≠ 0x52) → (∀ x ∈ buf, x ≠ 0x50) →
      check_file_type buf = .ok .Unsupported) := by
  refine ⟨?_, ?_, ?_, ?_⟩
  · intro rest
    show (check_rar5 (rar5sig ++ rest)) >>= _ = _
    rw [check_rar5_of_rar5sig, rres_bind_ok]
    rfl
  · intro rest h
    show (check_rar5 (rar4sig ++ rest)) >>= _ = _
    rw [check_rar5_of_rar4sig rest h, rres_bind_ok]
    show (check_rar4 (rar4sig ++ rest)) >>= _ = _
    rw [check_rar4_of_rar4sig, rres_bind_ok]
    rfl
  · intro rest h
    show (check_rar5 (zipsig ++ rest)) >>= _ = _
    rw [check_rar5_of_zipsig rest h, rres_bind_ok]
    show (check_rar4 (zipsig ++ rest)) >>= _ = _
    rw [check_rar4_of_zipsig rest h, rres_bind_ok]
    show (check_zip (zipsig ++ rest)) >>= _ = _
    rw [check_zip_of_zipsig, rres_bind_ok]
    rfl
  · intro buf h52 h50
    show (check_rar5 buf) >>= _ = _
    rw [check_rar5_no_trigger buf h52, rres_bind_ok]
    show (check_rar4 buf) >>= _ = _
    rw [check_rar4_no_trigger buf h52, rres_bind_ok]
    show (check_zip buf) >>= _ = _
    rw [check_zip_no_trigger buf h50, rres_bind_ok]
    rfl

/-- C6 (witness): the amended statement instantiated with the remainder
`[0x99]` for each signature clause and the empty buffer for the last. -/
theorem claim6_witness :
    check_file_type (rar5sig ++ [0x99]) = .ok .Rar5 ∧
    check_file_type (rar4sig ++ [0x99]) = .ok .Rar4 ∧
    check_file_type (zipsig ++ [0x99]) = .ok .Zip ∧
    check_file_type [] = .ok .Unsupported :=
  ⟨claim6_amended.1 [0x99],
   claim6_amended.2.1 [0x99] (by decide),
   claim6_amended.2.2.1 [0x99] (by decide),
   claim6_amended.2.2.2 [] (by simp) (by simp)⟩

/-- C7 (counterexample): on the buffer `[0x80]` (one continuation byte, no
terminator) `read_vint` panics via its off-by-one bounds check instead of
failing with `OutOfBounds`; on ten continuation bytes it panics via
`assert!(offset < 10)` instead of failing with `CorruptedArchive`. -/
theorem claim7_counterexample :
    read_vint [0x80] 0 = .error .panic ∧
    read_vint [0x80] 0 ≠ .error .outOfBounds ∧
    read_vint (List.replicate 10 0x80) 0 = .error .panic ∧
    read_vint (List.replicate 10 0x80) 0 ≠ .error .corruptedArchive := by decide

/-- C7 (amended): `read_vint` reports failure only when called with `pos`
strictly past the buffer end, and then by the sentinel return `(0, 0)` (the
`u8::MAX` length wrapped by the final `+ 1`); whenever the buffer ends
before a terminating byte at any reachable position it panics on an
out-of-range index, and a tenth continuation byte panics on the assert —
neither is a typed error. -/
theorem claim7_amended :
    (∀ (data : List Nat) (pos : Nat), data.length < pos → read_vint data pos = .ok (0, 0)) ∧
    read_vint [0x80] 0 = .error .panic ∧
    read_vint (List.replicate 10 0x80) 0 = .error .panic := by
  refine ⟨?_, by decide, by decide⟩
  intro data pos h
  show (if data.length < pos + 0 then (Except.ok (0, 0) : RRes (Nat × Nat)) else _) = _
  rw [if_pos (by omega)]

/-- C7 (witness): the sentinel clause of the amended statement at the empty
buffer and `pos = 3`. -/
theorem claim7_witness : ([] : List Nat).length < 3 ∧ read_vint [] 3 = .ok (0, 0) :=
  ⟨by decide, claim7_amended.1 [] 3 (by decide)⟩

/-- C8 (confirmed): for every `v < 2 ^ 35`, decoding the base-128 vint
encoding of `v` with `read_vint` reproduces `v` exactly and reports a
consumed-byte count equal to the encoding's length. -/
theorem claim8_vint_roundtrip : ∀ v : Nat, v < 2 ^ 35 →
    read_vint (encodeVint v) 0 = .ok (v, (encodeVint v).length) := by
  intro v hv
  have hv2 : v < 2 ^ (7 * 5) := by
    have h35 : 7 * 5 = 35 := by norm_num
    rw [h35]
    exact hv
  have h := read_vint_encode_aux 5 (by omega) v hv2 [] 0 (by simp) (by simp)
  simp only [List.nil_append, List.length_nil, Nat.mul_zero, pow_zero, Nat.zero_add] at h
  show read_vint_loop (encodeVint v) 0 10 0 0 0 = _
  have h10 : (10 : Nat) - 0 = 10 := by omega
  rw [h10] at h
  simpa using h

/-- C8 (witness): the round trip at `v = 300` (two-byte encoding). -/
theorem claim8_witness : (300 : Nat) < 2 ^ 35 ∧
    read_vint (encodeVint 300) 0 = .ok (300, (encodeVint 300).length) :=
  ⟨by norm_num, claim8_vint_roundtrip 300 (by norm_num)⟩

/-- C9 (confirmed): sorting members with filepaths
`["page10.jpg", "page2.jpg", "page1.jpg"]` with `sort_filename` yields the
filepath order `["page1.jpg", "page2.jpg", "page10.jpg"]` — digit runs
compare by numeric magnitude through the zero-padding transform. -/
theorem claim9_natural_sort :
    (sort_filename [memberOfPath page10path, memberOfPath page2path,
        memberOfPath page1path]).map MemberFile.filepath
      = [page1path, page2path, page10path] := by decide

/-- C10 (confirmed): `check_zipsign` accepts the ZIP magic only at offset 0,
so for every buffer that does not begin with `50 4B 03 04`,
`ZipReader::read_archive` returns `Ok` and appends no members. -/
theorem claim10_zip_signature_only_at_offset_zero :
    ∀ buf : List Nat, buf.take 4 ≠ [0x50, 0x4B, 0x03, 0x04] →
    ZipReader.read_archive buf = .ok [] := by
  intro buf h
  show (check_zipsign buf) >>= _ = _
  unfold check_zipsign
  by_cases hlen : buf.length < 4
  · rw [if_pos hlen, rres_bind_ok]
    rfl
  · rw [if_neg hlen, if_neg h, rres_bind_ok]
    rfl

/-- C10 (witness): a buffer whose fifth byte onward would match the magic
still yields an empty parse, since only offset 0 is probed. -/
theorem claim10_witness :
    (([0, 0x50, 0x4B, 0x03, 0x04] : List Nat).take 4 ≠ [0x50, 0x4B, 0x03, 0x04]) ∧
    ZipReader.read_archive [0, 0x50, 0x4B, 0x03, 0x04] = .ok [] :=
  ⟨by decide, claim10_zip_signature_only_at_offset_zero [0, 0x50, 0x4B, 0x03, 0x04] (by decide)⟩

end Saten
